import Mathlib

/-!
Verification of the roommodes acoustic computation (`roommodes.py`).

The program computes resonant acoustic modes of a rectangular room and the
proximity of a speaker position to the pressure nodes of those modes.

Embedding conventions:
* Python floats are modelled as exact numbers: `ℚ` where the source uses only
  field operations, `ℝ` where `math.sqrt` appears.
* `axial_mode_freqs` and `complex_mode_freq` are both instances of the same
  source loop shape (`for i in range(1, n+1): v := …; if v < cutoff: append
  else: break`), captured once as `modeLoop`.
* Python exceptions (ZeroDivisionError, ValueError) are modelled with
  `Except`; Python `int()` truncation is `pyInt` and Python `min()` of a list
  is `List.min?` with the empty case mapped to the raised ValueError.
* The node-proximity analyzer `run_simulation` (lines 115-156) is embedded
  from the loop text of lines 128-156 as `srcNodePositions`, `srcAxisPairs`
  and `srcRunSimulation`.  The fragment is syntactically incomplete at line
  132 and its loops use names (`modes_x`, `cs`, `x_pos`, `length`, …) that
  the surviving function text never binds; they are read as the values the
  function prepares at lines 121-131: the per-dimension axial mode lists,
  the speed of sound, the speaker coordinates, and the room length.  Note
  that the loop text uses `length` in the node bound of all three axes.
-/

/-- The common loop of `axial_mode_freqs` and `complex_mode_freq` in the
source: starting at harmonic index `i`, with `fuel` iterations remaining,
append `f i` while `f i < cutoff`, and stop at the first index whose value
meets or exceeds `cutoff` (Python `break`). -/
def modeLoop {α : Type} [LinearOrder α] (f : ℕ → α) (cutoff : α) : ℕ → ℕ → List α
  | 0, _ => []
  | fuel + 1, i => if f i < cutoff then f i :: modeLoop f cutoff fuel (i + 1) else []

/-- `axial_mode_freqs` from the source: frequencies `cs/2 * i / dimension`
for `i = 1, …, n`, truncated at the first value `≥ cutoff`. -/
def axial_mode_freqs (dimension : ℚ) (n : ℕ) (cs : ℚ) (cutoff : ℚ) : List ℚ :=
  modeLoop (fun i => cs / 2 * (i : ℚ) / dimension) cutoff n 1

/-- `speed_of_sound` from the source:
`331.3 * math.sqrt(1 + temperature/273.15) * (1 + 0.0124 * humidity)`. -/
noncomputable def speed_of_sound (temperature humidity : ℝ) : ℝ :=
  331.3 * Real.sqrt (1 + temperature / 273.15) * (1 + 0.0124 * humidity)

/-- The per-index frequency of `complex_mode_freq` in the source:
`(cs/2) * math.sqrt((i/length)**2 + (i/width)**2 + (i/height)**2)`. -/
noncomputable def complexFreq (length width height cs : ℝ) (i : ℕ) : ℝ :=
  (cs / 2) * Real.sqrt (((i : ℝ) / length) ^ 2 + ((i : ℝ) / width) ^ 2 + ((i : ℝ) / height) ^ 2)

/-- `complex_mode_freq` from the source: the same truncating loop as the
axial case, over the combined (tangential/oblique) frequency formula, for
`i = 1, …, n`, stopping at the first value `≥ cutoff`. -/
noncomputable def complex_mode_freq (n : ℕ) (cutoff length width height cs : ℝ) : List ℝ :=
  modeLoop (complexFreq length width height cs) cutoff n 1

/-- `complex_mode_freq` with Python's division semantics made explicit: each
iteration divides the harmonic index by `length`, `width` and `height`, so a
zero dimension raises ZeroDivisionError on the first iteration reached,
before any frequency for that iteration is produced. -/
noncomputable def complexLoopRun (length width height cs cutoff : ℝ) : ℕ → ℕ → Except String (List ℝ)
  | 0, _ => .ok []
  | fuel + 1, i =>
    if length = 0 ∨ width = 0 ∨ height = 0 then .error "ZeroDivisionError"
    else
      let v := complexFreq length width height cs i
      if v < cutoff then (complexLoopRun length width height cs cutoff fuel (i + 1)).map (v :: ·)
      else .ok []

/-- Running `complex_mode_freq` from harmonic index 1, with exceptions
modelled: `.error` is a raised ZeroDivisionError, `.ok` a returned tuple.
The argument order `n cutoff length width height cs` and the default values
used below (`4`, `250`, `0`, `0`, `0`, `343`) follow the source signature. -/
noncomputable def complex_mode_freq_run (n : ℕ) (cutoff length width height cs : ℝ) :
    Except String (List ℝ) :=
  complexLoopRun length width height cs cutoff n 1

/-- The cumulative configuration-error flag computed by `roommodes_main`:
set when some speaker coordinate fails `_ > 0`, some dimension fails
`v > 0`, or the relative humidity fails `0 < rh < 1`.  The source performs
no check at all on the harmonic count. -/
def config_error (xpos ypos zpos length width height rh : ℚ) : Bool :=
  (!(decide (0 < xpos) && decide (0 < ypos) && decide (0 < zpos)))
  || (!(decide (0 < length) && decide (0 < width) && decide (0 < height)))
  || (!(decide (0 < rh) && decide (rh < 1)))

/-- Python `int(x)`: truncation toward zero. -/
def pyInt (q : ℚ) : ℤ :=
  if 0 ≤ q then ⌊q⌋ else -⌊-q⌋

/-- The node positions computed in `run_simulation`'s proximity loops
(lines 136, 142 and 148 of the source):
`[(n * wavelength / 2) for n in range(1, int(length / (wavelength / 2)) + 1)]`.
The upper index is inclusive, so when `wavelength/2` divides `length`
exactly the last node lies at position `length` itself (on the wall); and
the `length` parameter here is the loop's `length` variable, which the
source text uses for all three axes. -/
def srcNodePositions (length wavelength : ℚ) : List ℚ :=
  (List.range (pyInt (length / (wavelength / 2))).toNat).map
    (fun (n : ℕ) => ((n : ℚ) + 1) * wavelength / 2)

/-- One proximity loop of `run_simulation` (the pattern of lines 134-138,
140-144 and 146-150): for each mode `f`, `wavelength = cs / f`, node
positions from the `length` argument, distances from the axis coordinate,
and `min(distances)` paired with `f`.  Python's `min` raises ValueError on
an empty sequence, aborting the whole loop; that is the `.error` case. -/
def srcAxisPairs (length coord cs : ℚ) : List ℚ → Except String (List (ℚ × ℚ))
  | [] => .ok []
  | f :: rest =>
    let wavelength := cs / f
    let distances := (srcNodePositions length wavelength).map
      (fun node_position => |coord - node_position|)
    match distances.min? with
    | none => .error "ValueError"
    | some m => (srcAxisPairs length coord cs rest).map (fun tail => (m, f) :: tail)

/-- Room dimensions in meters (`t.dimensions.length/width/height`, read at
lines 121-126). -/
structure Room where
  length : ℚ
  width : ℚ
  height : ℚ

/-- Speaker coordinates in meters (the loops' `x_pos`, `y_pos`, `z_pos`). -/
structure Speaker where
  x : ℚ
  y : ℚ
  z : ℚ

/-- The three per-dimension axial mode lists computed at lines 124-126
(the loops' `modes_x`, `modes_y`, `modes_z`). -/
structure ModesPerAxis where
  x : List ℚ
  y : List ℚ
  z : List ℚ

/-- The dict returned at lines 152-156: per-axis lists of
`(minimum distance, frequency)` pairs. -/
structure AnalysisReport where
  x : List (ℚ × ℚ)
  y : List (ℚ × ℚ)
  z : List (ℚ × ℚ)

/-- The proximity computation of `run_simulation` (lines 128-156): one
`srcAxisPairs` loop per axis, each using its own modes and speaker
coordinate but — as in the source text at lines 136, 142 and 148 — the room
LENGTH for the node positions of all three axes.  A raised exception
(ValueError from `min([])`) aborts the whole simulation. -/
def srcRunSimulation (room : Room) (modes : ModesPerAxis) (spk : Speaker) (cs : ℚ) :
    Except String AnalysisReport :=
  match srcAxisPairs room.length spk.x cs modes.x with
  | .error e => .error e
  | .ok px =>
    match srcAxisPairs room.length spk.y cs modes.y with
    | .error e => .error e
    | .ok py =>
      match srcAxisPairs room.length spk.z cs modes.z with
      | .error e => .error e
      | .ok pz => .ok ⟨px, py, pz⟩

theorem modeLoop_length_le {α : Type} [LinearOrder α] (f : ℕ → α) (c : α) (fuel i : ℕ) :
    (modeLoop f c fuel i).length ≤ fuel := by
  induction fuel generalizing i with
  | zero => simp [modeLoop]
  | succ m ih =>
    rw [modeLoop]
    split
    · simpa using Nat.succ_le_succ (ih (i + 1))
    · simp

theorem modeLoop_get? {α : Type} [LinearOrder α] (f : ℕ → α) (c : α) (fuel i : ℕ) :
    ∀ j, j < (modeLoop f c fuel i).length → (modeLoop f c fuel i)[j]? = some (f (i + j)) := by
  induction fuel generalizing i with
  | zero => intro j h; simp [modeLoop] at h
  | succ m ih =>
    intro j h
    rw [modeLoop] at h ⊢
    by_cases hlt : f i < c
    · rw [if_pos hlt] at h ⊢
      cases j with
      | zero => simp
      | succ j' =>
        simp only [List.getElem?_cons_succ]
        rw [ih (i + 1) j' (by simpa using Nat.lt_of_succ_lt_succ h)]
        congr 2
        omega
    · rw [if_neg hlt] at h
      simp at h

theorem modeLoop_get {α : Type} [LinearOrder α] (f : ℕ → α) (c : α) (fuel i : ℕ) :
    ∀ j (h : j < (modeLoop f c fuel i).length), (modeLoop f c fuel i).get ⟨j, h⟩ = f (i + j) := by
  intro j h
  have h1 := modeLoop_get? f c fuel i j h
  have h2 : (modeLoop f c fuel i)[j]? = some ((modeLoop f c fuel i).get ⟨j, h⟩) := by
    rw [List.getElem?_eq_getElem h]
    simp [List.get_eq_getElem]
  rw [h2] at h1
  exact Option.some.inj h1

theorem modeLoop_mem_lt {α : Type} [LinearOrder α] (f : ℕ → α) (c : α) (fuel i : ℕ) :
    ∀ x ∈ modeLoop f c fuel i, x < c := by
  induction fuel generalizing i with
  | zero => simp [modeLoop]
  | succ m ih =>
    intro x hx
    rw [modeLoop] at hx
    by_cases hlt : f i < c
    · rw [if_pos hlt] at hx
      rcases List.mem_cons.mp hx with h | h
      · exact h ▸ hlt
      · exact ih (i + 1) x h
    · rw [if_neg hlt] at hx
      simp at hx

theorem modeLoop_stop {α : Type} [LinearOrder α] (f : ℕ → α) (c : α) (fuel i : ℕ)
    (h : (modeLoop f c fuel i).length < fuel) :
    ¬ f (i + (modeLoop f c fuel i).length) < c := by
  induction fuel generalizing i with
  | zero => omega
  | succ m ih =>
    rw [modeLoop] at h ⊢
    by_cases hlt : f i < c
    · rw [if_pos hlt] at h ⊢
      simp only [List.length_cons]
      have hlen : i + ((modeLoop f c m (i + 1)).length + 1)
          = (i + 1) + (modeLoop f c m (i + 1)).length := by omega
      rw [hlen]
      exact ih (i + 1) (by simpa using Nat.lt_of_succ_lt_succ h)
    · rw [if_neg hlt] at h ⊢
      simpa using hlt

theorem modeLoop_nil {α : Type} [LinearOrder α] (f : ℕ → α) (c : α) (fuel i : ℕ)
    (h : ¬ f i < c) : modeLoop f c fuel i = [] := by
  cases fuel with
  | zero => rfl
  | succ m => rw [modeLoop, if_neg h]

theorem modeLoop_sorted {α : Type} [LinearOrder α] (f : ℕ → α) (c : α)
    (hmono : ∀ a b : ℕ, a < b → f a < f b) (fuel i : ℕ) :
    (modeLoop f c fuel i).Sorted (· < ·) := by
  rw [List.Sorted, List.pairwise_iff_get]
  intro a b hab
  rw [modeLoop_get f c fuel i a a.isLt, modeLoop_get f c fuel i b b.isLt]
  exact hmono _ _ (Nat.add_lt_add_left hab i)

/-- Claim C3: for positive dimension `d`, positive harmonic count `n`,
positive speed `cs` and positive cutoff `c`, `axial_mode_freqs` returns the
frequencies `cs/2 * i / d` for `i = 1, 2, …` in increasing order, stopping
(excluding the offending frequency) at the first `i` with `f_i ≥ c` or after
`i = n`: the result is strictly increasing, has length at most `n`, every
value is `< c`, and it is empty when the first harmonic meets the cutoff. -/
theorem axial_mode_freqs_spec (d cs c : ℚ) (n : ℕ)
    (hd : 0 < d) (hcs : 0 < cs) (hc : 0 < c) (hn : 1 ≤ n) :
    (∀ j (h : j < (axial_mode_freqs d n cs c).length),
        (axial_mode_freqs d n cs c).get ⟨j, h⟩ = cs / 2 * ((j : ℚ) + 1) / d)
    ∧ (axial_mode_freqs d n cs c).length ≤ n
    ∧ (axial_mode_freqs d n cs c).Sorted (· < ·)
    ∧ (∀ x ∈ axial_mode_freqs d n cs c, x < c)
    ∧ ((axial_mode_freqs d n cs c).length < n →
        ¬ cs / 2 * (((axial_mode_freqs d n cs c).length + 1 : ℕ) : ℚ) / d < c)
    ∧ (¬ cs / 2 * 1 / d < c → axial_mode_freqs d n cs c = []) := by
  have hcs2 : 0 < cs / 2 := by positivity
  refine ⟨?_, ?_, ?_, ?_, ?_, ?_⟩
  · intro j h
    have hg := modeLoop_get (fun i => cs / 2 * (i : ℚ) / d) c n 1 j h
    simp only [axial_mode_freqs] at hg ⊢
    rw [hg]
    push_cast
    ring
  · simpa [axial_mode_freqs] using modeLoop_length_le (fun i => cs / 2 * (i : ℚ) / d) c n 1
  · refine modeLoop_sorted (fun i => cs / 2 * (i : ℚ) / d) c ?_ n 1
    intro a b hab
    have hab' : (a : ℚ) < (b : ℚ) := by exact_mod_cast hab
    have h1 : cs / 2 * (a : ℚ) < cs / 2 * (b : ℚ) := by
      exact mul_lt_mul_of_pos_left hab' hcs2
    exact (div_lt_div_iff_of_pos_right hd).mpr h1
  · simpa [axial_mode_freqs] using modeLoop_mem_lt (fun i => cs / 2 * (i : ℚ) / d) c n 1
  · intro hlen
    have hstop := modeLoop_stop (fun i => cs / 2 * (i : ℚ) / d) c n 1
      (by simpa [axial_mode_freqs] using hlen)
    rw [Nat.add_comm] at hstop
    simpa [axial_mode_freqs] using hstop
  · intro h
    exact modeLoop_nil _ _ _ _ (by simpa using h)

/-- Witness for `axial_mode_freqs_spec` at dimension 1, harmonic count 2,
speed 2, cutoff 3 (frequencies 1 and 2, both admitted). -/
theorem axial_mode_freqs_spec_witness :
    (0 : ℚ) < 1 ∧ (0 : ℚ) < 2 ∧ (0 : ℚ) < 3 ∧ 1 ≤ 2
    ∧ ((∀ j (h : j < (axial_mode_freqs 1 2 2 3).length),
        (axial_mode_freqs 1 2 2 3).get ⟨j, h⟩ = 2 / 2 * ((j : ℚ) + 1) / 1)
      ∧ (axial_mode_freqs 1 2 2 3).length ≤ 2
      ∧ (axial_mode_freqs 1 2 2 3).Sorted (· < ·)
      ∧ (∀ x ∈ axial_mode_freqs 1 2 2 3, x < 3)
      ∧ ((axial_mode_freqs 1 2 2 3).length < 2 →
          ¬ (2 : ℚ) / 2 * (((axial_mode_freqs 1 2 2 3).length + 1 : ℕ) : ℚ) / 1 < 3)
      ∧ (¬ (2 : ℚ) / 2 * 1 / 1 < 3 → axial_mode_freqs 1 2 2 3 = [])) :=
  ⟨by norm_num, by norm_num, by norm_num, by norm_num,
    axial_mode_freqs_spec 1 2 3 2 (by norm_num) (by norm_num) (by norm_num) (by norm_num)⟩

/-- Claim C9: `axial_mode_freqs` at dimension 8.4, harmonic count 4, speed
343 and cutoff 250 returns exactly four frequencies (245/12, 245/6, 245/4,
245/3), each within 0.01 of 20.42, 40.83, 61.25, 81.67 Hz, in that order. -/
theorem axial_mode_freqs_scenario2 :
    axial_mode_freqs 8.4 4 343 250 = [245/12, 245/6, 245/4, 245/3]
    ∧ (axial_mode_freqs 8.4 4 343 250).length = 4
    ∧ |(245 / 12 : ℚ) - 20.42| ≤ 0.01 ∧ |(245 / 6 : ℚ) - 40.83| ≤ 0.01
    ∧ |(245 / 4 : ℚ) - 61.25| ≤ 0.01 ∧ |(245 / 3 : ℚ) - 81.67| ≤ 0.01 := by
  refine ⟨by norm_num [axial_mode_freqs, modeLoop], by norm_num [axial_mode_freqs, modeLoop],
    by norm_num [abs_le], by norm_num [abs_le], by norm_num [abs_le], by norm_num [abs_le]⟩

/-- Claim C4 (code bug): the validation in `roommodes_main` rejects a
speaker coordinate equal to 0 (its own log message says the coordinates need
only be non-negative), and it never examines the harmonic count at all, as
`config_error` takes no such argument.  With all other values valid, the
x-coordinate 0 alone flips the error flag. -/
theorem config_error_zero_coordinate :
    config_error 0 1 1 1 1 1 (1/2) = true ∧ config_error 1 1 1 1 1 1 (1/2) = false := by
  constructor
  · norm_num [config_error]
  · norm_num [config_error]

/-- Claim C5: for every temperature and every relative humidity accepted by
validation (`0 < rh < 1`), `speed_of_sound` equals
`331.3 * sqrt(1 + t/273.15) * (1 + 0.0124 * rh)`; the embedding is a pure
total function of its two arguments, so on such input it has no side
effects and no failure mode. -/
theorem speed_of_sound_formula (t rh : ℝ) (h0 : 0 < rh) (h1 : rh < 1) :
    speed_of_sound t rh = 331.3 * Real.sqrt (1 + t / 273.15) * (1 + 0.0124 * rh) := rfl

/-- Witness for `speed_of_sound_formula` at 20 °C and 50 % relative
humidity. -/
theorem speed_of_sound_formula_witness :
    (0 : ℝ) < 1/2 ∧ (1/2 : ℝ) < 1
    ∧ speed_of_sound 20 (1/2) = 331.3 * Real.sqrt (1 + 20 / 273.15) * (1 + 0.0124 * (1/2)) :=
  ⟨by norm_num, by norm_num, speed_of_sound_formula 20 (1/2) (by norm_num) (by norm_num)⟩

/-- Claim C7: over the valid domain (temperature above −273.15 °C, relative
humidity strictly between 0 and 1), `speed_of_sound` is strictly increasing
in the temperature for every fixed humidity, and strictly increasing in the
humidity for every fixed temperature. -/
theorem speed_of_sound_strict_mono (t₁ t₂ rh t rh₁ rh₂ : ℝ)
    (ht₁ : -273.15 < t₁) (ht12 : t₁ < t₂) (hrh0 : 0 < rh) (hrh1 : rh < 1)
    (ht : -273.15 < t) (hr0 : 0 < rh₁) (hr1 : rh₂ < 1) (hr12 : rh₁ < rh₂) :
    speed_of_sound t₁ rh < speed_of_sound t₂ rh
    ∧ speed_of_sound t rh₁ < speed_of_sound t rh₂ := by
  have hdiv : ∀ x y : ℝ, x < y → x / 273.15 < y / 273.15 := fun x y h =>
    (div_lt_div_iff_of_pos_right (by norm_num)).mpr h
  constructor
  · unfold speed_of_sound
    have h1 : (-273.15 : ℝ) / 273.15 < t₁ / 273.15 := hdiv _ _ ht₁
    rw [show (-273.15 : ℝ) / 273.15 = -1 by norm_num] at h1
    have harg1 : (0 : ℝ) ≤ 1 + t₁ / 273.15 := by linarith
    have hs : Real.sqrt (1 + t₁ / 273.15) < Real.sqrt (1 + t₂ / 273.15) :=
      Real.sqrt_lt_sqrt harg1 (by have := hdiv _ _ ht12; linarith)
    have hhum : (0 : ℝ) < 1 + 0.0124 * rh := by nlinarith
    exact mul_lt_mul_of_pos_right
      (mul_lt_mul_of_pos_left hs (by norm_num : (0 : ℝ) < 331.3)) hhum
  · unfold speed_of_sound
    have h1 : (-273.15 : ℝ) / 273.15 < t / 273.15 := hdiv _ _ ht
    rw [show (-273.15 : ℝ) / 273.15 = -1 by norm_num] at h1
    have harg : (0 : ℝ) < 1 + t / 273.15 := by linarith
    have hs : 0 < Real.sqrt (1 + t / 273.15) := Real.sqrt_pos.mpr harg
    have hb : (0 : ℝ) < 331.3 * Real.sqrt (1 + t / 273.15) := by positivity
    have hh : 1 + 0.0124 * rh₁ < 1 + 0.0124 * rh₂ := by nlinarith
    exact mul_lt_mul_of_pos_left hh hb

/-- Witness for `speed_of_sound_strict_mono`: 0 °C vs 1 °C at 50 %
humidity, and 25 % vs 50 % humidity at 10 °C. -/
theorem speed_of_sound_strict_mono_witness :
    (-273.15 : ℝ) < 0 ∧ (0 : ℝ) < 1 ∧ (0 : ℝ) < 1/2 ∧ (1/2 : ℝ) < 1
    ∧ (-273.15 : ℝ) < 10 ∧ (0 : ℝ) < 1/4 ∧ (1/2 : ℝ) < 1 ∧ (1/4 : ℝ) < 1/2
    ∧ speed_of_sound 0 (1/2) < speed_of_sound 1 (1/2)
    ∧ speed_of_sound 10 (1/4) < speed_of_sound 10 (1/2) := by
  refine ⟨by norm_num, by norm_num, by norm_num, by norm_num, by norm_num, by norm_num,
    by norm_num, by norm_num, ?_, ?_⟩
  · exact (speed_of_sound_strict_mono 0 1 (1/2) 10 (1/4) (1/2) (by norm_num) (by norm_num)
      (by norm_num) (by norm_num) (by norm_num) (by norm_num) (by norm_num) (by norm_num)).1
  · exact (speed_of_sound_strict_mono 0 1 (1/2) 10 (1/4) (1/2) (by norm_num) (by norm_num)
      (by norm_num) (by norm_num) (by norm_num) (by norm_num) (by norm_num) (by norm_num)).2

/-- Claim C8 counterexample: `speed_of_sound 23 0.6` is NOT within 0.05 of
346.13 m/s; the code's formula yields approximately 347.53 m/s there. -/
theorem speed_of_sound_scenario1_counterexample :
    ¬ |speed_of_sound 23 0.6 - 346.13| ≤ 0.05 := by
  have hlb : (1.0412 : ℝ) < Real.sqrt (1 + 23 / 273.15) :=
    (Real.lt_sqrt (by norm_num)).mpr (by norm_num)
  have hnn : (0 : ℝ) ≤ Real.sqrt (1 + 23 / 273.15) := Real.sqrt_nonneg _
  unfold speed_of_sound
  rw [abs_le]
  intro hcon
  nlinarith [hcon.2]

/-- Claim C8 amended: `speed_of_sound 23 0.6` is within 0.05 of 347.53 m/s
(the exact value is `331.3 * sqrt(296.15/273.15) * 1.00744 ≈ 347.533`). -/
theorem speed_of_sound_scenario1_amended :
    |speed_of_sound 23 0.6 - 347.53| ≤ 0.05 := by
  have hlb : (1.0412 : ℝ) < Real.sqrt (1 + 23 / 273.15) :=
    (Real.lt_sqrt (by norm_num)).mpr (by norm_num)
  have hub : Real.sqrt (1 + 23 / 273.15) < 1.0413 :=
    (Real.sqrt_lt' (by norm_num)).mpr (by norm_num)
  unfold speed_of_sound
  rw [abs_le]
  constructor
  · nlinarith
  · nlinarith

/-- Claim C6 counterexample: with dimensions 1/3, 1/4, 1/12 and speed 2,
every combined-mode frequency is `13 * i`; called with harmonic count 5 and
cutoff 20, `complex_mode_freq` returns only `[13]`: the loop truncates
internally at the first harmonic whose frequency meets the cutoff, so the
result is neither unbounded nor left for the caller to truncate. -/
theorem complex_mode_freq_truncation_counterexample :
    complex_mode_freq 5 20 (1/3) (1/4) (1/12) 2 = [13] := by
  have hf : ∀ i : ℕ, complexFreq (1/3) (1/4) (1/12) 2 i = 13 * (i : ℝ) := by
    intro i
    unfold complexFreq
    rw [show (((i : ℝ) / (1/3)) ^ 2 + ((i : ℝ) / (1/4)) ^ 2 + ((i : ℝ) / (1/12)) ^ 2)
        = (13 * (i : ℝ)) ^ 2 by ring]
    rw [Real.sqrt_sq (by positivity)]
    ring
  norm_num [complex_mode_freq, modeLoop, hf]

/-- Claim C6 amended: the combined-mode operation yields the frequencies
`(cs/2) * sqrt((i/length)^2 + (i/width)^2 + (i/height)^2)` for increasing
harmonic index `i = 1, 2, …`, but as a finite sequence truncated internally
by the function itself: at most `n` entries, stopping at the first harmonic
whose frequency meets or exceeds the cutoff. -/
theorem complex_mode_freq_spec (n : ℕ) (cutoff length width height cs : ℝ) :
    (∀ j (h : j < (complex_mode_freq n cutoff length width height cs).length),
        (complex_mode_freq n cutoff length width height cs).get ⟨j, h⟩
          = (cs / 2) * Real.sqrt ((((j : ℝ) + 1) / length) ^ 2
              + (((j : ℝ) + 1) / width) ^ 2 + (((j : ℝ) + 1) / height) ^ 2))
    ∧ (complex_mode_freq n cutoff length width height cs).length ≤ n
    ∧ (∀ x ∈ complex_mode_freq n cutoff length width height cs, x < cutoff)
    ∧ ((complex_mode_freq n cutoff length width height cs).length < n →
        ¬ complexFreq length width height cs
            ((complex_mode_freq n cutoff length width height cs).length + 1) < cutoff) := by
  refine ⟨?_, ?_, ?_, ?_⟩
  · intro j h
    have hg := modeLoop_get (complexFreq length width height cs) cutoff n 1 j h
    simp only [complex_mode_freq] at hg ⊢
    rw [hg]
    unfold complexFreq
    congr 2
    push_cast
    ring
  · simpa [complex_mode_freq] using
      modeLoop_length_le (complexFreq length width height cs) cutoff n 1
  · simpa [complex_mode_freq] using
      modeLoop_mem_lt (complexFreq length width height cs) cutoff n 1
  · intro hlen
    have hstop := modeLoop_stop (complexFreq length width height cs) cutoff n 1
      (by simpa [complex_mode_freq] using hlen)
    rw [Nat.add_comm] at hstop
    simpa [complex_mode_freq] using hstop

/-- Witness for `complex_mode_freq_spec` at harmonic count 5, cutoff 20,
dimensions 1/3, 1/4, 1/12 and speed 2. -/
theorem complex_mode_freq_spec_witness :
    (∀ j (h : j < (complex_mode_freq 5 20 (1/3) (1/4) (1/12) 2).length),
        (complex_mode_freq 5 20 (1/3) (1/4) (1/12) 2).get ⟨j, h⟩
          = ((2 : ℝ) / 2) * Real.sqrt ((((j : ℝ) + 1) / (1/3)) ^ 2
              + (((j : ℝ) + 1) / (1/4)) ^ 2 + (((j : ℝ) + 1) / (1/12)) ^ 2))
    ∧ (complex_mode_freq 5 20 (1/3) (1/4) (1/12) 2).length ≤ 5
    ∧ (∀ x ∈ complex_mode_freq 5 20 (1/3) (1/4) (1/12) 2, x < 20)
    ∧ ((complex_mode_freq 5 20 (1/3) (1/4) (1/12) 2).length < 5 →
        ¬ complexFreq (1/3) (1/4) (1/12) 2
            ((complex_mode_freq 5 20 (1/3) (1/4) (1/12) 2).length + 1) < 20) :=
  complex_mode_freq_spec 5 20 (1/3) (1/4) (1/12) 2

/-- Claim C10: the source defaults the three dimensions of
`complex_mode_freq` to 0, so a call that does not explicitly supply positive
length, width and height (here the full default argument set `n = 4`,
`cutoff = 250`, dimensions 0, `cs = 343`) raises ZeroDivisionError on the
very first harmonic, producing no frequency at all; the function itself
performs no input validation. -/
theorem complex_mode_freq_default_zero_division :
    complex_mode_freq_run 4 250 0 0 0 343 = .error "ZeroDivisionError" := by
  simp [complex_mode_freq_run, complexLoopRun]

/-- Claim C1 (code bug): in the present `run_simulation` text the y and z
proximity loops compute their node positions from `length` (lines 142 and
148), not from width and height as the claim states.  Concretely: room of
length 1, width 4, height 1, speed 4, speaker at (0, 5/2, 0), a single
y-axis mode of 2 Hz (half-wavelength 1).  The code's y entry is (3/2, 2),
because the length bound admits only the node at position 1, while the same
per-axis computation given the width — the analysis the claim describes —
admits nodes up to 4 and yields (1/2, 2). -/
theorem run_simulation_y_axis_uses_length :
    srcRunSimulation ⟨1, 4, 1⟩ ⟨[], [2], []⟩ ⟨0, 5/2, 0⟩ 4
      = .ok ⟨[], [(3/2, 2)], []⟩
    ∧ srcAxisPairs 4 (5/2) 4 [2] = .ok [(1/2, 2)]
    ∧ (3/2 : ℚ) ≠ 1/2 := by
  refine ⟨?_, ?_, by norm_num⟩
  · have h1 : Int.toNat 1 = 1 := rfl
    norm_num [srcRunSimulation, srcAxisPairs, srcNodePositions, pyInt, h1,
      List.range_succ, List.min?_cons, List.foldl, Except.map]
  · have h4 : Int.toNat 4 = 4 := rfl
    have h32 : |(3/2 : ℚ)| = 3/2 := by norm_num
    have h12 : |(1/2 : ℚ)| = 1/2 := by norm_num
    norm_num [srcAxisPairs, srcNodePositions, pyInt, h4, h32, h12, List.range_succ,
      List.min?_cons, List.foldl, min_def, Except.map]

/-- Claim C2 (code bug): the present code builds the node list with
`range(1, int(length/(wavelength/2)) + 1)`, an inclusive bound.  For a mode
whose half-wavelength equals the dimension exactly (dimension 1, speed 2,
frequency 1 Hz) it places a node at position 1 — on the wall, not strictly
inside — and the analyzer reports the computed distance |0 - 1| = 1 for the
speaker at 0, instead of the empty node list and explicit "no node"
condition the claim requires; and for a mode with no node at all (frequency
1/2 Hz, half-wavelength 2 > 1) the code raises ValueError from `min([])`
rather than reporting a per-entry no-node condition. -/
theorem run_simulation_boundary_node_at_wall :
    srcNodePositions 1 2 = [1]
    ∧ srcAxisPairs 1 0 2 [1] = .ok [(1, 1)]
    ∧ srcAxisPairs 1 0 2 [1/2] = .error "ValueError" := by
  have h1 : Int.toNat 1 = 1 := rfl
  refine ⟨?_, ?_, ?_⟩
  · norm_num [srcNodePositions, pyInt, h1, List.range_succ]
  · norm_num [srcAxisPairs, srcNodePositions, pyInt, h1, List.range_succ,
      List.min?_cons, List.foldl, Except.map]
  · norm_num [srcAxisPairs, srcNodePositions, pyInt]
